import Mathlib

/-!
# Verification of the AIS forwarder pipeline (`src/ais_forwarder.py`)

A shallow embedding of the core of the AIS forwarding script: the bounded
FIFO queue bridging the serial producer and the network consumer, the
`SocketManager` connection state machine with exponential backoff, and the
`AISHandler` start/stop lifecycle.

Modelling conventions:
* Wall-clock times and delays are rationals (`ℚ`); the Python floats that
  occur here (5, 1.5, 60 and their products under `min`) are all exactly
  representable, so no rounding is lost.
* OS-level outcomes that the code observes through exceptions (whether a
  TCP `connect` or `sendall` succeeds) are supplied as explicit boolean
  oracles.
* The `queue.Queue` is a `List` together with the capacity test the code's
  `put`/`put_nowait`/`get` perform; a `put` that times out on a full queue
  and a `put_nowait` on a full queue both surface as a `false` flag.
* The manager's `socket_lock` is a non-reentrant `threading.Lock`; a call
  that blocks forever on it (as `send` does when it nests `connect` under
  the lock it already holds) is modelled by an `Option` result of `none`.
-/

/-- Constant `MAX_QUEUE_SIZE = 1000` (line 28). -/
def MAX_QUEUE_SIZE : Nat := 1000

/-- Constant `SOCKET_TIMEOUT = 5` seconds (line 29). -/
def SOCKET_TIMEOUT : ℚ := 5

/-- Constant `RECONNECT_DELAY = 5` seconds (line 30). -/
def RECONNECT_DELAY : ℚ := 5

/-- Constant `BACKOFF_FACTOR = 1.5` (line 31). -/
def BACKOFF_FACTOR : ℚ := 3/2

/-- Constant `MAX_BACKOFF_DELAY = 60` seconds (line 32). -/
def MAX_BACKOFF_DELAY : ℚ := 60

/-- `queue.Queue.put` / `put_nowait` on a queue of capacity `MAX_QUEUE_SIZE`
(lines 259 and 287): if the queue is below capacity the record is appended at
the tail and the flag is `true`; on a full queue the put fails (`queue.Full`
after the bounded wait, or immediately for `put_nowait`), the flag is `false`
and the contents are untouched. -/
def qput {α : Type} (q : List α) (x : α) : Bool × List α :=
  if q.length < MAX_QUEUE_SIZE then (true, q ++ [x]) else (false, q)

/-- `queue.Queue.get` (line 276): take the head of the FIFO queue, or `none`
(`queue.Empty` after the bounded wait) when the queue is empty. -/
def qget {α : Type} (q : List α) : Option (α × List α) :=
  match q with
  | [] => none
  | x :: xs => some (x, xs)

/-- The mutable state of `SocketManager` (lines 144-152).  `socket` is `some`
exactly when `self.socket` is a (possibly unconnected) socket object rather
than `None`. -/
structure SocketManager where
  socket : Option Unit
  connected : Bool
  last_attempt : ℚ
  backoff_delay : ℚ
  deriving DecidableEq, Repr

/-- `SocketManager.__init__` (lines 148-152). -/
def SocketManager.init : SocketManager :=
  { socket := none
    connected := false
    last_attempt := 0
    backoff_delay := RECONNECT_DELAY }

/-- `SocketManager.connect` (lines 154-192).  `now` is `time.time()`; `ok`
tells whether the OS-level `socket.connect` call succeeds.  Returns the
boolean result, the new state, and the number of OS-level connect attempts
performed by this call (0 or 1).  On a failed attempt the freshly created
socket object is still stored (`self.socket = socket.socket(...)` runs
before the raising `connect`), so `socket` is `some ()` there too. -/
def SocketManager.connect (s : SocketManager) (now : ℚ) (ok : Bool) :
    Bool × SocketManager × Nat :=
  if s.connected then
    (true, s, 0)
  else if now - s.last_attempt < s.backoff_delay then
    (false, s, 0)
  else if ok then
    (true, { s with socket := some ()
                    connected := true
                    last_attempt := now
                    backoff_delay := RECONNECT_DELAY }, 1)
  else
    (false, { s with socket := some ()
                     connected := false
                     last_attempt := now
                     backoff_delay := min (s.backoff_delay * BACKOFF_FACTOR) MAX_BACKOFF_DELAY },
     1)

/-- `SocketManager.send` (lines 194-214).  The manager's `socket_lock`
(line 149) is a non-reentrant `threading.Lock`, and `send` holds it for its
whole body (line 204).  When `self.connected` is false, line 205 calls
`self.connect()`, whose own `with self.socket_lock` (line 161) blocks forever
on the lock the same thread already holds, so that call never returns; it is
modelled as `none`.  A returning call gives `some` of the boolean result, the
new state, and the payloads fully written during the call; `sOk` is the
oracle for the `sendall` call. -/
def SocketManager.send {α : Type} (s : SocketManager) (data : α) (sOk : Bool) :
    Option (Bool × SocketManager × List α) :=
  if s.connected then
    if sOk then
      some (true, s, [data])
    else
      some (false, { s with connected := false }, [])
  else
    none

/-- `SocketManager.close` (lines 216-226).  When a socket object exists it is
closed (even if `close` raises, the `finally` clears both fields); when
`self.socket` is already `None` the body is skipped entirely. -/
def SocketManager.close (s : SocketManager) : SocketManager :=
  match s.socket with
  | some _ => { s with connected := false, socket := none }
  | none => s

/-- The state invariant of `SocketManager`: whenever `connected` is set,
a socket object is present. -/
def SocketManager.Inv (s : SocketManager) : Prop :=
  s.connected = true → s.socket.isSome

instance (s : SocketManager) : Decidable s.Inv := by
  unfold SocketManager.Inv; infer_instance

/-- The joint state of the producer/consumer pipeline around `data_queue`
(`AISHandler._producer` and `AISHandler._consumer`): the records still waiting
at the serial port, the channel contents, the records delivered so far (in
delivery order) and the records dropped on a full queue. -/
structure PipeSt (α : Type) where
  pending : List α
  chan : List α
  sent : List α
  dropped : List α
  deriving DecidableEq, Repr

/-- One producer iteration that read a line (`AISHandler._producer`,
lines 255-261): the next pending record is offered to `data_queue` with
`put(line, block=True, timeout=1)`; on `queue.Full` it is dropped with a
warning. -/
def prodStep {α : Type} (st : PipeSt α) : PipeSt α :=
  match st.pending with
  | [] => st
  | x :: rest =>
    match qput st.chan x with
    | (true, q2) => { st with pending := rest, chan := q2 }
    | (false, _) => { st with pending := rest, dropped := st.dropped ++ [x] }

/-- One consumer iteration with a successful send (`AISHandler._consumer`,
lines 276-282): `get` a record (an empty queue just loops) and deliver it. -/
def consStep {α : Type} (st : PipeSt α) : PipeSt α :=
  match qget st.chan with
  | none => st
  | some (x, q2) => { st with chan := q2, sent := st.sent ++ [x] }

/-- Run the two loops under an arbitrary interleaving: `true` schedules a
producer iteration, `false` a consumer iteration. -/
def runSched {α : Type} (st : PipeSt α) : List Bool → PipeSt α
  | [] => st
  | b :: bs => runSched (if b then prodStep st else consStep st) bs

/-- One full consumer iteration of `AISHandler._consumer` (lines 276-291)
with the send outcome `sendOk` made explicit.  `mid` are the records the
producer enqueues between this consumer's `get` and its re-enqueue attempt
(the queue is shared, so the channel can grow while `send` is in flight).
Returns the channel afterwards, the records delivered, and the records
dropped by the `queue.Full` branch of the re-enqueue. -/
def consumeIter {α : Type} (chan : List α) (sendOk : Bool) (mid : List α) :
    List α × List α × List α :=
  match qget chan with
  | none => (chan ++ mid, [], [])
  | some (d, rest) =>
    let q1 := rest ++ mid
    if sendOk then
      (q1, [d], [])
    else
      match qput q1 d with
      | (true, q2) => (q2, [], [])
      | (false, _) => (q1, [], [d])

/-- `AISHandler._close_serial` (lines 309-317), acting on the
`serial_port` field: `some b` is a serial object whose `is_open` is `b`,
`none` is Python's `None`.  Only an open port is closed and cleared; a
`None` or already-closed handle is left alone. -/
def closeSerial (sp : Option Bool) : Option Bool :=
  match sp with
  | some true => none
  | other => other

/-- The fields of `AISHandler` that its lifecycle manipulates
(lines 232-243): the `running` flag, the serial handle, whether each worker
thread is alive, and the socket manager. -/
structure AISHandler where
  running : Bool
  serial_port : Option Bool
  producer_alive : Bool
  consumer_alive : Bool
  socket_manager : SocketManager
  deriving DecidableEq, Repr

/-- The observable blocking actions `AISHandler.stop` performs: a `join`
with the given timeout on one of the two worker threads. -/
inductive StopAction where
  | joinProducer (timeout : ℚ)
  | joinConsumer (timeout : ℚ)
  deriving DecidableEq, Repr

/-- `AISHandler.stop` (lines 344-363): a no-op when not running; otherwise
clear `running`, join each live thread with `timeout=5`, then close the
serial port and the socket manager.  Returns the new state and the join
actions performed in order. -/
def AISHandler.stop (h : AISHandler) : AISHandler × List StopAction :=
  if h.running = false then
    (h, [])
  else
    ({ h with running := false
              serial_port := closeSerial h.serial_port
              socket_manager := h.socket_manager.close },
     (if h.producer_alive then [StopAction.joinProducer 5] else []) ++
       (if h.consumer_alive then [StopAction.joinConsumer 5] else []))

/-!
## Helper lemmas
-/

/-- Closing a manager that satisfies the state invariant leaves it
disconnected, whatever branch `close` takes. -/
theorem close_connected_false (s : SocketManager) (hinv : s.Inv) :
    s.close.connected = false := by
  unfold SocketManager.close
  cases hs : s.socket with
  | some u => simp
  | none =>
    simp only []
    cases hcon : s.connected
    · rfl
    · have := hinv hcon
      rw [hs] at this
      simp at this

/-- `N` consecutive failing, non-throttled connect attempts starting from
`s`: each call happens exactly when the backoff delay has elapsed since the
previous attempt, and the OS-level connect fails every time. -/
def failStream (s : SocketManager) : Nat → SocketManager
  | 0 => s
  | n + 1 =>
    let p := failStream s n
    (p.connect (p.last_attempt + p.backoff_delay) false).2.1

/-!
## Claims
-/

/-- C2: the channel size never exceeds the capacity `MAX_QUEUE_SIZE = 1000`,
and a put against a full channel fails and leaves the contents unchanged
(the record is dropped, nothing queued is overwritten). -/
theorem bounded_channel_capacity {α : Type} (q : List α) (x : α) :
    (q.length ≤ MAX_QUEUE_SIZE → ((qput q x).2).length ≤ MAX_QUEUE_SIZE) ∧
    (q.length = MAX_QUEUE_SIZE → qput q x = (false, q)) := by
  constructor
  · intro h
    unfold qput
    split
    · simp only [List.length_append, List.length_singleton]
      omega
    · simpa using h
  · intro h
    unfold qput
    simp [h]

/-- Witness for `bounded_channel_capacity` at a concrete full channel. -/
theorem bounded_channel_capacity_witness :
    qput (List.replicate MAX_QUEUE_SIZE (0 : Nat)) 7 =
      (false, List.replicate MAX_QUEUE_SIZE 0) :=
  (bounded_channel_capacity (List.replicate MAX_QUEUE_SIZE 0) 7).2 (by simp)

/-- C10: a `connect` call rejected by the backoff throttle returns `false`
and leaves every field of the manager exactly as it was: no attempt is
recorded, no socket operation happens. -/
theorem connect_throttled_frame (s : SocketManager) (now : ℚ) (ok : Bool)
    (hc : s.connected = false) (ht : now - s.last_attempt < s.backoff_delay) :
    s.connect now ok = (false, s, 0) ∧
    (s.connect now ok).2.1.last_attempt = s.last_attempt ∧
    (s.connect now ok).2.1.backoff_delay = s.backoff_delay ∧
    (s.connect now ok).2.1.socket = s.socket ∧
    (s.connect now ok).2.1.connected = s.connected := by
  unfold SocketManager.connect
  simp [hc, ht]

/-- Witness for `connect_throttled_frame`: a fresh manager probed again at
time 2, well inside the initial 5-second backoff window. -/
theorem connect_throttled_frame_witness :
    SocketManager.init.connect 2 true = (false, SocketManager.init, 0) :=
  (connect_throttled_frame SocketManager.init 2 true rfl
    (by norm_num [SocketManager.init, RECONNECT_DELAY])).1

/-- C5: on a disconnected manager, `connect` inside the backoff window
returns `false` and performs no socket operation; once the backoff delay has
elapsed it records the attempt timestamp and performs exactly one OS-level
connection attempt. -/
theorem connect_backoff_throttle (s : SocketManager) (now : ℚ) (ok : Bool)
    (hc : s.connected = false) :
    (now - s.last_attempt < s.backoff_delay →
      s.connect now ok = (false, s, 0)) ∧
    (s.backoff_delay ≤ now - s.last_attempt →
      (s.connect now ok).2.2 = 1 ∧ (s.connect now ok).2.1.last_attempt = now) := by
  unfold SocketManager.connect
  constructor
  · intro ht
    simp [hc, ht]
  · intro ht
    simp only [hc, Bool.false_eq_true, if_false, not_lt.mpr ht, if_neg (not_lt.mpr ht)]
    cases ok <;> simp

/-- Witness for `connect_backoff_throttle`: a fresh manager probed at time
10, past the 5-second initial backoff. -/
theorem connect_backoff_throttle_witness :
    (SocketManager.init.connect 10 true).2.2 = 1 ∧
    (SocketManager.init.connect 10 true).2.1.last_attempt = 10 :=
  (connect_backoff_throttle SocketManager.init 10 true rfl).2
    (by norm_num [SocketManager.init, RECONNECT_DELAY])

/-- C8: `close` releases the socket unconditionally, leaves the manager
Disconnected (given the state invariant that a connected manager holds a
socket object), and is idempotent: a second `close` changes nothing. -/
theorem close_contract (s : SocketManager) (hinv : s.Inv) :
    s.close.connected = false ∧ s.close.socket = none ∧ s.close.close = s.close := by
  refine ⟨close_connected_false s hinv, ?_, ?_⟩
  · unfold SocketManager.close
    cases hs : s.socket with
    | some u => simp
    | none =>
      simp only []
      exact hs
  · unfold SocketManager.close
    cases hs : s.socket <;> simp [hs]

/-- Witness for `close_contract` at a connected manager holding a socket. -/
theorem close_contract_witness :
    SocketManager.close ⟨some (), true, 0, 5⟩ = ⟨none, false, 0, 5⟩ ∧
    (SocketManager.close ⟨some (), true, 0, 5⟩).close =
      SocketManager.close ⟨some (), true, 0, 5⟩ := by
  have h := close_contract ⟨some (), true, 0, 5⟩ (by intro h; rfl)
  exact ⟨by rfl, h.2.2⟩

/-- C9: the `SocketManager` state invariant — `connected` implies a socket
object is present — holds initially and is preserved by `connect`, by every
`send` call that returns (a deadlocked `send` has no post-state), and by
`close`. -/
theorem socket_manager_inv :
    SocketManager.init.Inv ∧
    (∀ (s : SocketManager) (now : ℚ) (ok : Bool),
      s.Inv → ((s.connect now ok).2.1).Inv) ∧
    (∀ (α : Type) (s : SocketManager) (data : α) (sOk : Bool)
      (r : Bool × SocketManager × List α),
      s.Inv → s.send data sOk = some r → r.2.1.Inv) ∧
    (∀ s : SocketManager, s.Inv → s.close.Inv) := by
  refine ⟨?_, ?_, ?_, ?_⟩
  · intro h
    simp [SocketManager.init] at h
  · intro s now ok hinv
    unfold SocketManager.connect
    cases hc : s.connected
    · by_cases ht : now - s.last_attempt < s.backoff_delay
      · simpa [hc, ht] using hinv
      · cases ok <;> simp [hc, ht, SocketManager.Inv]
    · simpa [hc] using hinv
  · intro α s data sOk r hinv hr
    unfold SocketManager.send at hr
    cases hc : s.connected
    · rw [hc] at hr
      simp at hr
    · rw [hc] at hr
      cases sOk
      · simp only [Bool.false_eq_true, if_false, if_true, Option.some.injEq] at hr
        subst hr
        intro hcon
        simp at hcon
      · simp only [if_true, Option.some.injEq] at hr
        subst hr
        exact hinv
  · intro s hinv
    unfold SocketManager.close
    cases hs : s.socket with
    | some u => intro h; simp at h
    | none => simpa using hinv

/-- Witness for `socket_manager_inv`: the invariant after a successful
connect on a fresh manager. -/
theorem socket_manager_inv_witness :
    SocketManager.Inv (SocketManager.init.connect 10 true).2.1 :=
  socket_manager_inv.2.1 SocketManager.init 10 true socket_manager_inv.1

/-- C6: the claim states that `send` on a disconnected manager first calls
`connect`, returns `false` without writing when that fails, and delivers the
payload in the same call when it succeeds.  The code cannot do either: it
calls `self.connect()` (line 205) while holding the non-reentrant
`socket_lock` acquired at line 204, and `connect` re-acquires that same lock
(line 161), so every `send` on a disconnected manager deadlocks and never
returns at all. -/
theorem send_disconnected_deadlock {α : Type} (s : SocketManager) (data : α)
    (sOk : Bool) (hc : s.connected = false) :
    s.send data sOk = none := by
  unfold SocketManager.send
  simp [hc]

/-- Witness for `send_disconnected_deadlock`: the very first `send` on a
fresh manager never returns. -/
theorem send_disconnected_deadlock_witness :
    SocketManager.init.send (42 : Nat) true = none :=
  send_disconnected_deadlock SocketManager.init 42 true rfl

/-- One step of the capped-backoff recurrence: applying the code's update
`b := min (b * BACKOFF_FACTOR) MAX_BACKOFF_DELAY` to an already-capped value
gives the capped value of the uncapped product. -/
theorem backoff_min_step (x : ℚ) :
    min (min x MAX_BACKOFF_DELAY * BACKOFF_FACTOR) MAX_BACKOFF_DELAY =
      min (x * BACKOFF_FACTOR) MAX_BACKOFF_DELAY := by
  unfold BACKOFF_FACTOR MAX_BACKOFF_DELAY
  rcases le_total x 60 with h | h
  · rw [min_eq_left h]
  · rw [min_eq_right h]
    rw [min_eq_right (by norm_num : (60 : ℚ) ≤ 60 * (3/2))]
    rw [min_eq_right (by linarith : (60 : ℚ) ≤ x * (3/2))]

/-- After `N` consecutive failing, non-throttled connect attempts the
manager is still disconnected and its backoff delay is the closed form
`min (base * factor ^ N) max`. -/
theorem failStream_spec (N : Nat) :
    (failStream SocketManager.init N).connected = false ∧
    (failStream SocketManager.init N).backoff_delay =
      min (RECONNECT_DELAY * BACKOFF_FACTOR ^ N) MAX_BACKOFF_DELAY := by
  induction N with
  | zero =>
    refine ⟨rfl, ?_⟩
    show RECONNECT_DELAY = _
    norm_num [RECONNECT_DELAY, MAX_BACKOFF_DELAY]
  | succ n ih =>
    obtain ⟨hc, hb⟩ := ih
    have hlt : ¬ ((failStream SocketManager.init n).last_attempt +
        (failStream SocketManager.init n).backoff_delay -
        (failStream SocketManager.init n).last_attempt <
        (failStream SocketManager.init n).backoff_delay) := by
      rw [add_sub_cancel_left]
      exact lt_irrefl _
    have hstep : failStream SocketManager.init (n + 1) =
        ((failStream SocketManager.init n).connect
          ((failStream SocketManager.init n).last_attempt +
            (failStream SocketManager.init n).backoff_delay) false).2.1 := rfl
    rw [hstep]
    unfold SocketManager.connect
    simp only [hc, Bool.false_eq_true, if_false, hlt]
    refine ⟨trivial, ?_⟩
    show min ((failStream SocketManager.init n).backoff_delay * BACKOFF_FACTOR)
      MAX_BACKOFF_DELAY = _
    rw [hb, backoff_min_step, pow_succ, ← mul_assoc]

/-- C4: after `N` consecutive connect failures the backoff delay equals
`min (base * factor ^ N) max` with base 5 s, factor 1.5 and max 60 s, and a
single successful (non-throttled) connect resets it to the base. -/
theorem backoff_delay_formula :
    (∀ N : Nat, (failStream SocketManager.init N).backoff_delay =
      min (RECONNECT_DELAY * BACKOFF_FACTOR ^ N) MAX_BACKOFF_DELAY) ∧
    (∀ (s : SocketManager) (now : ℚ), s.connected = false →
      s.backoff_delay ≤ now - s.last_attempt →
      ((s.connect now true).2.1).backoff_delay = RECONNECT_DELAY) := by
  constructor
  · intro N
    exact (failStream_spec N).2
  · intro s now hc ht
    unfold SocketManager.connect
    simp [hc, not_lt.mpr ht]

/-- Witness for `backoff_delay_formula`: seven straight failures saturate
the delay at the 60-second cap, and one successful connect on a fresh
manager resets it to 5 seconds. -/
theorem backoff_delay_formula_witness :
    (failStream SocketManager.init 7).backoff_delay = 60 ∧
    ((SocketManager.init.connect 10 true).2.1).backoff_delay = RECONNECT_DELAY := by
  constructor
  · rw [backoff_delay_formula.1 7]
    norm_num [RECONNECT_DELAY, BACKOFF_FACTOR, MAX_BACKOFF_DELAY]
  · exact backoff_delay_formula.2 SocketManager.init 10 rfl
      (by norm_num [SocketManager.init, RECONNECT_DELAY])

/-- C3: when `send` fails on a dequeued record, the consumer attempts one
non-blocking re-enqueue of that record at the tail: with room in the channel
the new contents are exactly the records already ahead of the retry slot
followed by the retried record (so under FIFO dequeue it is delivered
strictly after all of them); with the channel full the record is dropped
and the contents are untouched. -/
theorem consumer_requeue_tail {α : Type} (d : α) (rest mid : List α) :
    ((rest ++ mid).length < MAX_QUEUE_SIZE →
      consumeIter (d :: rest) false mid = ((rest ++ mid) ++ [d], [], [])) ∧
    (MAX_QUEUE_SIZE ≤ (rest ++ mid).length →
      consumeIter (d :: rest) false mid = (rest ++ mid, [], [d])) := by
  unfold consumeIter qget qput
  constructor
  · intro h
    rw [List.length_append] at h
    simp [h]
  · intro h
    rw [List.length_append] at h
    simp [not_lt.mpr h]

/-- Witness for `consumer_requeue_tail`: failing to send record 1 from
channel `[1, 2, 3]` while the producer adds 9 leaves channel
`[2, 3, 9, 1]` — the retried record at the tail. -/
theorem consumer_requeue_tail_witness :
    consumeIter [1, 2, 3] false [9] = ([2, 3, 9, 1], [], []) := by
  have h := (consumer_requeue_tail 1 [2, 3] [9]).1 (by norm_num [MAX_QUEUE_SIZE])
  simpa using h

/-- Any reachable pipeline state with nothing dropped and the enqueue-order
decomposition `sent ++ chan ++ pending = l` keeps both properties under any
further interleaving of producer and consumer iterations, as long as the
offered sequence fits in the channel capacity. -/
theorem runSched_inv {α : Type} (l : List α) (hl : l.length ≤ MAX_QUEUE_SIZE)
    (sch : List Bool) (st : PipeSt α)
    (hd : st.dropped = []) (hs : st.sent ++ st.chan ++ st.pending = l) :
    (runSched st sch).dropped = [] ∧
    (runSched st sch).sent ++ (runSched st sch).chan ++ (runSched st sch).pending = l := by
  induction sch generalizing st with
  | nil => exact ⟨hd, hs⟩
  | cons b bs ih =>
    have hrun : runSched st (b :: bs) = runSched (if b then prodStep st else consStep st) bs := rfl
    rw [hrun]
    cases b
    · -- consumer iteration
      simp only [Bool.false_eq_true, if_false]
      apply ih
      · unfold consStep
        cases hq : st.chan <;> simp [qget, hq, hd]
      · unfold consStep
        cases hq : st.chan with
        | nil => simpa [qget, hq] using hs
        | cons y ys =>
          simp only [qget, hq]
          rw [← hs, hq]
          simp
    · -- producer iteration
      simp only [if_true]
      unfold prodStep
      cases hp : st.pending with
      | nil => exact ih st hd (by simpa [hp] using hs)
      | cons x rest =>
        have hlen : st.chan.length < MAX_QUEUE_SIZE := by
          have : (st.sent ++ st.chan ++ st.pending).length = l.length := by rw [hs]
          simp only [List.length_append, hp, List.length_cons] at this
          omega
        simp only [qput, hlen, if_true]
        apply ih
        · simpa using hd
        · simp only []
          rw [← hs, hp]
          simp

/-- C1: if at most `MAX_QUEUE_SIZE` records are offered to the channel and
every send succeeds, then under any interleaving of the read and send loops
that drains the pipeline, the delivered sequence equals the offered
sequence — pure FIFO, nothing dropped. -/
theorem pipeline_fifo_no_loss {α : Type} (l : List α) (sch : List Bool)
    (hl : l.length ≤ MAX_QUEUE_SIZE)
    (hfin : (runSched (⟨l, [], [], []⟩ : PipeSt α) sch).pending = [] ∧
            (runSched (⟨l, [], [], []⟩ : PipeSt α) sch).chan = []) :
    (runSched (⟨l, [], [], []⟩ : PipeSt α) sch).sent = l ∧
    (runSched (⟨l, [], [], []⟩ : PipeSt α) sch).dropped = [] := by
  obtain ⟨hd, hs⟩ := runSched_inv l hl sch ⟨l, [], [], []⟩ rfl (by simp)
  refine ⟨?_, hd⟩
  rw [hfin.1, hfin.2] at hs
  simpa using hs

/-- Witness for `pipeline_fifo_no_loss`: three records enqueued then
dequeued arrive as `[1, 2, 3]` with nothing dropped. -/
theorem pipeline_fifo_no_loss_witness :
    (runSched (⟨[1, 2, 3], [], [], []⟩ : PipeSt Nat)
      [true, true, true, false, false, false]).sent = [1, 2, 3] ∧
    (runSched (⟨[1, 2, 3], [], [], []⟩ : PipeSt Nat)
      [true, true, true, false, false, false]).dropped = [] :=
  pipeline_fifo_no_loss [1, 2, 3] [true, true, true, false, false, false]
    (by norm_num [MAX_QUEUE_SIZE]) (by decide)

/-- C7: `stop` is a no-op when the pipeline is already stopped; called while
running it clears the lifecycle flag, joins each live worker thread with a
5-second timeout (both, in order, when both are alive), closes the serial
handle (it is no longer open) and closes the connection manager (leaving it
disconnected, given its state invariant); and `stop` is idempotent — a
second call is a no-op. -/
theorem stop_contract (h : AISHandler) :
    (h.running = false → h.stop = (h, [])) ∧
    (h.running = true →
      (h.stop).1.running = false ∧
      (h.producer_alive = true → h.consumer_alive = true →
        (h.stop).2 = [StopAction.joinProducer 5, StopAction.joinConsumer 5]) ∧
      (h.stop).1.serial_port ≠ some true ∧
      (h.stop).1.socket_manager = h.socket_manager.close ∧
      (h.socket_manager.Inv → (h.stop).1.socket_manager.connected = false)) ∧
    (h.stop).1.stop = ((h.stop).1, []) := by
  refine ⟨?_, ?_, ?_⟩
  · intro hr
    unfold AISHandler.stop
    simp [hr]
  · intro hr
    have hstop : h.stop =
        ({ h with running := false
                  serial_port := closeSerial h.serial_port
                  socket_manager := h.socket_manager.close },
         (if h.producer_alive then [StopAction.joinProducer 5] else []) ++
           (if h.consumer_alive then [StopAction.joinConsumer 5] else [])) := by
      unfold AISHandler.stop
      simp [hr]
    rw [hstop]
    refine ⟨rfl, ?_, ?_, rfl, ?_⟩
    · intro hp hcn
      simp [hp, hcn]
    · unfold closeSerial
      cases hsp : h.serial_port with
      | none => simp
      | some b => cases b <;> simp
    · intro hinv
      exact close_connected_false h.socket_manager hinv
  · have hnoop : ∀ g : AISHandler, g.running = false → g.stop = (g, []) := by
      intro g hg
      unfold AISHandler.stop
      simp [hg]
    have hstopped : (h.stop).1.running = false := by
      unfold AISHandler.stop
      by_cases hr : h.running = false
      · simp [hr]
      · simp [hr]
    exact hnoop _ hstopped

/-- Witness for `stop_contract`: stopping a running pipeline with both
threads alive and an open serial port. -/
theorem stop_contract_witness :
    (AISHandler.stop ⟨true, some true, true, true, SocketManager.init⟩).2 =
      [StopAction.joinProducer 5, StopAction.joinConsumer 5] ∧
    (AISHandler.stop ⟨true, some true, true, true, SocketManager.init⟩).1.running = false ∧
    (AISHandler.stop
      ⟨true, some true, true, true, SocketManager.init⟩).1.socket_manager.connected = false := by
  have h := (stop_contract ⟨true, some true, true, true, SocketManager.init⟩).2.1 rfl
  exact ⟨h.2.1 rfl rfl, h.1, h.2.2.2.2 (by intro hx; simp [SocketManager.init] at hx)⟩
